import Mathlib

/-!
Verification of the chat-practice backend: a shallow embedding of the
conversation buffer, request validator, streaming relay and rate limiter,
with theorems settling the specification claims.

Python strings are modelled as lists of characters (`PyStr`); stateful
objects become explicit state passing; exceptions become `Except` /
`Option` results.
-/

namespace ChatApi

/-- Python `str` modelled as a list of characters. -/
abbrev PyStr := List Char

/-- Characters for which Python `str.isspace()` is true (the set stripped
by `str.strip()` with no arguments): `\t \n \v \f \r`, `\x1c`-`\x1f`,
space, `\x85`, `\xa0`, and the Unicode space separators. -/
def isPySpace (c : Char) : Bool :=
  (9 ≤ c.toNat && c.toNat ≤ 13) || (28 ≤ c.toNat && c.toNat ≤ 31) ||
  c.toNat == 32 || c.toNat == 0x85 || c.toNat == 0xa0 || c.toNat == 0x1680 ||
  (0x2000 ≤ c.toNat && c.toNat ≤ 0x200a) || c.toNat == 0x2028 ||
  c.toNat == 0x2029 || c.toNat == 0x202f || c.toNat == 0x205f ||
  c.toNat == 0x3000

/-- Python `s.strip()`: remove leading and trailing whitespace. -/
def pyStrip (s : PyStr) : PyStr :=
  ((s.dropWhile isPySpace).reverse.dropWhile isPySpace).reverse

/-- A message dictionary `\x7b'role': ..., 'content': ...\x7d`
(`conversation_manager.py`, line 36). -/
structure Message where
  role : PyStr
  content : PyStr
deriving DecidableEq, Repr

/-- `ConversationManager` state (`conversation_manager.py`): the configured
maximum and the current message list. -/
structure ConversationManager where
  max_context_messages : Nat
  messages : List Message
deriving DecidableEq, Repr

/-- `ConversationManager.__init__`: empty history. -/
def ConversationManager.init (max_context_messages : Nat) : ConversationManager :=
  ⟨max_context_messages, []⟩

/-- Python slice `l[-n:]`. Note that for `n = 0` Python reads `l[-0:]` as
`l[0:]`, i.e. the whole list; for `n ≥ 1` it is the last `n` elements. -/
def pySliceLast (n : Nat) (l : List Message) : List Message :=
  if n = 0 then l else l.drop (l.length - n)

/-- `ConversationManager._trim_history` (lines 43-51): if the history
exceeds the maximum, keep `self.messages[-self.max_context_messages:]`. -/
def ConversationManager.trim_history (cm : ConversationManager) : ConversationManager :=
  if cm.messages.length > cm.max_context_messages then
    { cm with messages := pySliceLast cm.max_context_messages cm.messages }
  else cm

/-- `ConversationManager.add_message` (lines 28-41): append the new message,
then trim. -/
def ConversationManager.add_message (cm : ConversationManager) (role content : PyStr) :
    ConversationManager :=
  ConversationManager.trim_history { cm with messages := cm.messages ++ [⟨role, content⟩] }

/-- `ConversationManager.get_messages` (lines 53-60): `self.messages.copy()`,
as a value. (Object-identity aspects are modelled separately below.) -/
def ConversationManager.get_messages (cm : ConversationManager) : List Message :=
  cm.messages

/-- `ConversationManager.clear` (lines 62-68). -/
def ConversationManager.clear (cm : ConversationManager) : ConversationManager :=
  { cm with messages := [] }

/-- `ConversationManager.get_context_size` (lines 70-77). -/
def ConversationManager.get_context_size (cm : ConversationManager) : Nat :=
  cm.messages.length

/-- Fold a list of `(role, content)` pairs into a manager with `add_message`. -/
def addAll (cm : ConversationManager) (adds : List (PyStr × PyStr)) : ConversationManager :=
  adds.foldl (fun s p => s.add_message p.1 p.2) cm

/-- The last `n` elements of a list (window description used in proofs). -/
def lastWindow (n : Nat) (l : List Message) : List Message :=
  l.drop (l.length - n)

/-! ### SSE frames and JSON text encoding -/

/-- The literal `"data: "` prefixed to every SSE frame. -/
def sse_data_marker : PyStr := "data: ".toList

/-- The two newlines terminating every SSE frame. -/
def sse_frame_tail : PyStr := ['\n', '\n']

/-- The frame actually built by `ChatService.stream_response`
(`chat_service.py`, line 118): the raw delta text between the marker and
the terminator, with no JSON encoding. -/
def sse_chunk (text_chunk : PyStr) : PyStr :=
  sse_data_marker ++ text_chunk ++ sse_frame_tail

/-- Lowercase hexadecimal digit for `n < 16`. -/
def hexDigitChar (n : Nat) : Char :=
  if n < 10 then Char.ofNat (48 + n) else Char.ofNat (87 + n)

/-- JSON string-escape of one character, as `json.dumps` renders it:
the two-character escapes for quote, backslash, newline, tab, carriage
return, backspace and form feed, `\u00XX` for the remaining control
characters, and the character itself otherwise. -/
def jsonEscapeChar (c : Char) : PyStr :=
  if c = '"' then ['\\', '"']
  else if c = '\\' then ['\\', '\\']
  else if c = '\n' then ['\\', 'n']
  else if c = '\t' then ['\\', 't']
  else if c = '\r' then ['\\', 'r']
  else if c = Char.ofNat 8 then ['\\', 'b']
  else if c = Char.ofNat 12 then ['\\', 'f']
  else if c.toNat < 32 then
    ['\\', 'u', '0', '0', hexDigitChar (c.toNat / 16), hexDigitChar (c.toNat % 16)]
  else [c]

/-- A JSON string literal encoding `s` (opening quote, escaped body,
closing quote). -/
def json_dumps_string (s : PyStr) : PyStr :=
  '"' :: ((s.map jsonEscapeChar).flatten ++ ['"'])

/-- The payload the specification prescribes for each SSE frame:
the JSON object with a single `text` field holding the JSON string for
`t`, laid out as `json.dumps` would print it. -/
def json_text_object (t : PyStr) : PyStr :=
  '{' :: '"' :: 't' :: 'e' :: 'x' :: 't' :: '"' :: ':' :: ' ' ::
    (json_dumps_string t ++ ['}'])

/-- The SSE frame shape the specification prescribes. -/
def sse_json_chunk (t : PyStr) : PyStr :=
  sse_data_marker ++ json_text_object t ++ sse_frame_tail

/-- Numeric value of a hexadecimal digit character. -/
def hexVal (c : Char) : Option Nat :=
  if 48 ≤ c.toNat ∧ c.toNat ≤ 57 then some (c.toNat - 48)
  else if 97 ≤ c.toNat ∧ c.toNat ≤ 102 then some (c.toNat - 87)
  else if 65 ≤ c.toNat ∧ c.toNat ≤ 70 then some (c.toNat - 55)
  else none

/-- Decode the body of a JSON string literal up to and including its
closing quote; returns the decoded text and the remaining input. Fails on
unescaped control characters, bad escapes, or a missing closing quote. -/
def parse_json_string_body : PyStr → Option (PyStr × PyStr)
  | [] => none
  | c :: rest =>
      if c = '"' then some ([], rest)
      else if c = '\\' then
        match rest with
        | [] => none
        | e :: rest2 =>
            if e = '"' then
              (parse_json_string_body rest2).map (fun p => ('"' :: p.1, p.2))
            else if e = '\\' then
              (parse_json_string_body rest2).map (fun p => ('\\' :: p.1, p.2))
            else if e = 'n' then
              (parse_json_string_body rest2).map (fun p => ('\n' :: p.1, p.2))
            else if e = 't' then
              (parse_json_string_body rest2).map (fun p => ('\t' :: p.1, p.2))
            else if e = 'r' then
              (parse_json_string_body rest2).map (fun p => ('\r' :: p.1, p.2))
            else if e = 'b' then
              (parse_json_string_body rest2).map (fun p => (Char.ofNat 8 :: p.1, p.2))
            else if e = 'f' then
              (parse_json_string_body rest2).map (fun p => (Char.ofNat 12 :: p.1, p.2))
            else if e = 'u' then
              match rest2 with
              | h1 :: h2 :: h3 :: h4 :: rest3 =>
                  match hexVal h1, hexVal h2, hexVal h3, hexVal h4 with
                  | some a, some b, some hc, some hd =>
                      (parse_json_string_body rest3).map
                        (fun p => (Char.ofNat (4096 * a + 256 * b + 16 * hc + hd) :: p.1, p.2))
                  | _, _, _, _ => none
              | _ => none
            else none
      else if c.toNat < 32 then none
      else (parse_json_string_body rest).map (fun p => (c :: p.1, p.2))

/-- The ten opening characters of the prescribed frame payload:
the brace, the quoted `text` key, the colon-space, and the opening quote
of the value string. -/
def json_text_head : PyStr := ['{', '"', 't', 'e', 'x', 't', '"', ':', ' ', '"']

/-- Model of the payload decoding `generate` performs
(`chat_routes.py`, lines 156-157): `json.loads(json_str)` followed by
`parsed.get("text", "")`, with a decode failure reported as `none` (the
chunk is then skipped). The model accepts exactly payloads of the shape
`json.dumps` gives the single-field object — an opening brace, the `text`
key, and a JSON string — and rejects everything else; this agrees with
the Python code on every payload of that shape and on every payload that
is not a valid JSON document (a `json.JSONDecodeError`), which covers all
payloads arising in this development. The accepted payloads open with the
ten characters of `json_text_head`, continue with a JSON string, and
close with the object brace. -/
def json_loads_text (payload : PyStr) : Option PyStr :=
  if json_text_head.isPrefixOf payload then
    match parse_json_string_body (payload.drop 10) with
    | some (t, tail) => if tail = ['}'] then some t else none
    | _ => none
  else none

/-- Per-chunk extraction step of `generate` (`chat_routes.py`,
lines 153-161): if the chunk starts with `data: ` and ends with the two
newlines, strip them (`chunk[6:-2]`) and decode the payload; otherwise,
or when decoding fails, contribute nothing. -/
def extract_chunk_text (chunk : PyStr) : Option PyStr :=
  if sse_data_marker.isPrefixOf chunk && sse_frame_tail.isSuffixOf chunk then
    json_loads_text ((chunk.drop 6).dropLast.dropLast)
  else none

/-- Whether an SSE chunk has the form the specification claims: the
`data: ` marker, a JSON object payload whose `text` field holds a JSON
string, and the closing two newlines. -/
def is_sse_json_chunk (c : PyStr) : Bool :=
  (extract_chunk_text c).isSome

/-! ### Vendor stream and the streaming relay -/

/-- Events of the vendor streaming protocol that `stream_response`
distinguishes: a `content_block_delta` (whose `delta` may or may not have
a `text` attribute), the block start/stop markers, and `message_stop`. -/
inductive VendorEvent where
  | content_block_delta (text : Option PyStr)
  | content_block_start
  | content_block_stop
  | message_stop
deriving DecidableEq, Repr

/-- One step of iterating the vendor stream: either the next event, or the
iteration raising an exception with the given message. -/
inductive StreamItem where
  | evt (e : VendorEvent)
  | raiseErr (msg : PyStr)
deriving DecidableEq, Repr

/-- Behaviour of the vendor call underlying `send_message`: the initial
`client.messages.create` either raises, or returns a stream that plays
out as the given items. -/
inductive VendorCall where
  | callFail (msg : PyStr)
  | callOk (items : List StreamItem)
deriving DecidableEq, Repr

/-- `APIError` (`error_handlers.py`, lines 13-27). -/
structure APIError where
  message : PyStr
  code : PyStr
  status_code : Nat
deriving DecidableEq, Repr

/-- The error `send_message` raises when the vendor call fails
(`chat_service.py`, lines 68-74). -/
def claude_api_error (m : PyStr) : APIError :=
  ⟨"Failed to communicate with Claude API: ".toList ++ m,
   "CLAUDE_API_ERROR".toList, 502⟩

/-- The error `stream_response` raises when iteration fails
(`chat_service.py`, lines 135-141). -/
def streaming_error (m : PyStr) : APIError :=
  ⟨"Streaming failed: ".toList ++ m, "STREAMING_ERROR".toList, 500⟩

/-- `ChatService.send_message` (`chat_service.py`, lines 35-74): returns
the vendor stream, or raises `claude_api_error` if the call fails. -/
def send_message : VendorCall → Except APIError (List StreamItem)
  | .callFail m => .error (claude_api_error m)
  | .callOk items => .ok items

/-- The event loop of `ChatService.stream_response` (`chat_service.py`,
lines 104-130): for each `content_block_delta` whose delta has text,
yield `data: <raw text>\n\n`; stop at `message_stop`; ignore other
events; an exception from the iteration becomes `streaming_error`.
Returns the chunks yielded before termination and the error, if any. -/
def relay_items : List StreamItem → List PyStr × Option APIError
  | [] => ([], none)
  | .evt (.content_block_delta (some t)) :: rest =>
      let r := relay_items rest
      (sse_chunk t :: r.1, r.2)
  | .evt (.content_block_delta none) :: rest => relay_items rest
  | .evt .message_stop :: _ => ([], none)
  | .evt _ :: rest => relay_items rest
  | .raiseErr m :: _ => ([], some (streaming_error m))

/-- `ChatService.stream_response` (`chat_service.py`, lines 76-141) as a
whole: the initial `send_message`, then the event loop; an `APIError`
from `send_message` is re-raised unchanged. -/
def stream_response (call : VendorCall) : List PyStr × Option APIError :=
  match send_message call with
  | .error e => ([], some e)
  | .ok items => relay_items items

/-- The full completion text of a vendor stream: the concatenation of all
text-delta payloads before `message_stop`. -/
def vendor_full_text_items : List StreamItem → PyStr
  | [] => []
  | .evt (.content_block_delta (some t)) :: rest => t ++ vendor_full_text_items rest
  | .evt .message_stop :: _ => []
  | _ :: rest => vendor_full_text_items rest

/-- The full completion text of a vendor call. -/
def vendor_full_text : VendorCall → PyStr
  | .callFail _ => []
  | .callOk items => vendor_full_text_items items

/-- A stream item that neither raises nor terminates the stream. -/
def nonterminal_item : StreamItem → Bool
  | .raiseErr _ => false
  | .evt .message_stop => false
  | _ => true

/-- The text carried by a stream item, if it is a text delta. -/
def delta_text : StreamItem → Option PyStr
  | .evt (.content_block_delta (some t)) => some t
  | _ => none

/-- The `generate` generator of the `/api/chat` route (`chat_routes.py`,
lines 142-183): pass every relay chunk through; collect the decoded text
of each well-formed chunk; on clean completion add one assistant message
holding the joined text; on an error add nothing and re-raise (no
synthetic error frame is yielded). -/
def generate_run (cm : ConversationManager) (call : VendorCall) :
    List PyStr × ConversationManager × Option APIError :=
  let r := stream_response call
  match r.2 with
  | none =>
      let complete_message := (r.1.filterMap extract_chunk_text).flatten
      (r.1, cm.add_message "assistant".toList complete_message, none)
  | some e => (r.1, cm, some e)

/-! ### Request validation and the chat endpoint -/

/-- `chat_routes.py`, line 99. -/
def MIN_MESSAGE_LENGTH : Nat := 1

/-- `chat_routes.py`, line 100. -/
def MAX_MESSAGE_LENGTH : Nat := 10000

/-- `chat_routes.py`, line 125: all of `U+0000`-`U+001F` except newline,
tab and carriage return. -/
def control_chars : List Char :=
  ((List.range 32).map Char.ofNat).filter (fun c => !(c == '\n' || c == '\t' || c == '\r'))

/-- The validation ladder of the `/api/chat` handler (`chat_routes.py`,
lines 87-131): strip the message, then check emptiness, minimum length,
maximum length, NUL bytes, and the remaining control characters, in that
order; return the stripped message on success. -/
def validate_message (raw : PyStr) : Except APIError PyStr :=
  let user_message := pyStrip raw
  if user_message.isEmpty then
    .error ⟨"Message is required and cannot be empty".toList,
            "MISSING_MESSAGE".toList, 400⟩
  else if user_message.length < MIN_MESSAGE_LENGTH then
    .error ⟨"Message must be at least 1 character".toList,
            "MESSAGE_TOO_SHORT".toList, 400⟩
  else if user_message.length > MAX_MESSAGE_LENGTH then
    .error ⟨"Message must be no more than 10000 characters".toList,
            "MESSAGE_TOO_LONG".toList, 400⟩
  else if user_message.contains (Char.ofNat 0) then
    .error ⟨"Message contains invalid characters (null bytes)".toList,
            "INVALID_CHARACTERS".toList, 400⟩
  else if control_chars.any (fun c => user_message.contains c) then
    .error ⟨"Message contains invalid control characters".toList,
            "INVALID_CHARACTERS".toList, 400⟩
  else .ok user_message

/-- Claim-side predicate: a NUL byte, or a character in `U+0001`-`U+001F`
other than newline, tab and carriage return. -/
def disallowed_control (c : Char) : Bool :=
  c.toNat < 32 && !(c == '\n' || c == '\t' || c == '\r')

/-- Whether a string contains any disallowed control character. -/
def has_disallowed_control (s : PyStr) : Bool :=
  s.any disallowed_control

/-- The `/api/chat` handler after the JSON-body check (`chat_routes.py`,
lines 87-193): validate, add the user message, run `generate` against
the vendor call, returning its yielded chunks, the final buffer and any
mid-stream error; validation failures are raised before any streaming. -/
def chat_handler (cm : ConversationManager) (raw : PyStr) (call : VendorCall) :
    Except APIError (List PyStr × ConversationManager × Option APIError) :=
  match validate_message raw with
  | .error e => .error e
  | .ok user_message =>
      let cm1 := cm.add_message "user".toList user_message
      .ok (generate_run cm1 call)

/-- A concrete vendor stream: one `Hello` text delta, then `message_stop`. -/
def hello_items : List StreamItem :=
  [.evt .content_block_start,
   .evt (.content_block_delta (some "Hello".toList)),
   .evt .content_block_stop,
   .evt .message_stop]

/-- A concrete successful vendor call producing the text `Hello`. -/
def hello_call : VendorCall := .callOk hello_items

/-! ### Rate limiter -/

/-- `RateLimiter` (`rate_limiter.py`, lines 13-32): configuration and the
per-identifier call history. The Python `dict` is modelled as an
association list; `time.time()` values are modelled as rationals. -/
structure RateLimiter where
  max_calls : Nat
  period : ℤ
  calls : List (PyStr × List ℤ)
deriving DecidableEq

/-- `RateLimiter.__init__`: empty history. -/
def RateLimiter.init (max_calls : Nat) (period : ℤ) : RateLimiter :=
  ⟨max_calls, period, []⟩

/-- Dictionary lookup in the modelled `calls` map. -/
def lookup_calls : List (PyStr × List ℤ) → PyStr → Option (List ℤ)
  | [], _ => none
  | (k, v) :: rest, id => if k = id then some v else lookup_calls rest id

/-- Dictionary update in the modelled `calls` map. -/
def set_calls : List (PyStr × List ℤ) → PyStr → List ℤ → List (PyStr × List ℤ)
  | [], id, v => [(id, v)]
  | (k, w) :: rest, id, v =>
      if k = id then (id, v) :: rest else (k, w) :: set_calls rest id v

/-- `RateLimiter.is_allowed` (`rate_limiter.py`, lines 34-62): start an
empty history for a new identifier, drop the timestamps with
`now - call_time >= period`, then admit and record `now` exactly when
fewer than `max_calls` remain. -/
def RateLimiter.is_allowed (rl : RateLimiter) (identifier : PyStr) (now : ℤ) :
    Bool × RateLimiter :=
  let history := (lookup_calls rl.calls identifier).getD []
  let pruned := history.filter (fun t => now - t < rl.period)
  if pruned.length < rl.max_calls then
    (true, { rl with calls := set_calls rl.calls identifier (pruned ++ [now]) })
  else
    (false, { rl with calls := set_calls rl.calls identifier pruned })

/-- Run a sequence of `is_allowed` calls against a limiter. -/
def run_limiter (rl : RateLimiter) : List (PyStr × ℤ) → RateLimiter
  | [] => rl
  | (id, now) :: rest => run_limiter (rl.is_allowed id now).2 rest

/-- Claim-side: the timestamps of a history that lie within the trailing
`period` seconds of `now` (the ones not yet expired). -/
def surviving (history : List ℤ) (now period : ℤ) : List ℤ :=
  history.filter (fun t => now - t < period)

/-! ### Object-identity model for `get_messages` (shallow copy) -/

/-- A fragment of the Python object heap: message dictionaries and list
objects (lists hold references to dictionaries), each addressed by its
index. -/
structure PyHeap where
  dicts : List Message
  lists : List (List Nat)
deriving DecidableEq, Repr

/-- The conversation manager under the object model: its `messages`
attribute is a reference to a list object. -/
structure ConversationManagerObj where
  max_context_messages : Nat
  messages_ref : Nat
deriving DecidableEq, Repr

/-- Dereference a list object. -/
def heap_read_list (h : PyHeap) (r : Nat) : List Nat :=
  h.lists.getD r []

/-- Dereference a message dictionary. -/
def heap_read_dict (h : PyHeap) (d : Nat) : Message :=
  h.dicts.getD d ⟨[], []⟩

/-- Overwrite a list object. -/
def heap_write_list (h : PyHeap) (r : Nat) (l : List Nat) : PyHeap :=
  { h with lists := h.lists.set r l }

/-- Overwrite a message dictionary. -/
def heap_write_dict (h : PyHeap) (d : Nat) (m : Message) : PyHeap :=
  { h with dicts := h.dicts.set d m }

/-- `get_messages` under the object model: `self.messages.copy()`
allocates a fresh list object holding the same element references, and
returns a reference to it. -/
def get_messages_obj (h : PyHeap) (cm : ConversationManagerObj) : PyHeap × Nat :=
  ({ h with lists := h.lists ++ [heap_read_list h cm.messages_ref] }, h.lists.length)

/-- What a later caller of `get_messages` observes: the message values
reached through the buffer's own list object. -/
def view_messages (h : PyHeap) (cm : ConversationManagerObj) : List Message :=
  (heap_read_list h cm.messages_ref).map (heap_read_dict h)

/-- Mutations a caller can perform on the value returned by
`get_messages`: mutations of the returned list object itself, and
in-place mutations of the message elements it contains. -/
inductive CallerOp where
  | listSet (i : Nat) (d : Nat)
  | listAppend (d : Nat)
  | listPop
  | listClear
  | setRole (i : Nat) (s : PyStr)
  | setContent (i : Nat) (s : PyStr)
deriving DecidableEq, Repr

/-- Whether an operation touches only the returned list object (and not
the message dictionaries it references). -/
def CallerOp.list_only : CallerOp → Bool
  | .setRole _ _ => false
  | .setContent _ _ => false
  | _ => true

/-- Effect of one caller mutation on the heap, acting through the
returned list reference `r`. -/
def caller_step (r : Nat) (h : PyHeap) : CallerOp → PyHeap
  | .listSet i d => heap_write_list h r ((heap_read_list h r).set i d)
  | .listAppend d => heap_write_list h r (heap_read_list h r ++ [d])
  | .listPop => heap_write_list h r ((heap_read_list h r).dropLast)
  | .listClear => heap_write_list h r []
  | .setRole i s =>
      let d := (heap_read_list h r).getD i 0
      heap_write_dict h d { heap_read_dict h d with role := s }
  | .setContent i s =>
      let d := (heap_read_list h r).getD i 0
      heap_write_dict h d { heap_read_dict h d with content := s }

/-- Run a sequence of caller mutations. -/
def caller_run (r : Nat) (h : PyHeap) (ops : List CallerOp) : PyHeap :=
  ops.foldl (caller_step r) h

/-! ## Theorems -/

theorem lastWindow_of_le (n : Nat) (l : List Message) (h : l.length ≤ n) :
    lastWindow n l = l := by
  simp [lastWindow, Nat.sub_eq_zero_of_le h]

theorem lastWindow_length (n : Nat) (l : List Message) :
    (lastWindow n l).length = min n l.length := by
  simp only [lastWindow, List.length_drop]
  omega

theorem trim_history_mk (N : Nat) (X : List Message) :
    ConversationManager.trim_history ⟨N, X⟩ =
      ⟨N, if X.length > N then pySliceLast N X else X⟩ := by
  unfold ConversationManager.trim_history
  split
  · next h => simp only at h ⊢
  · next h => simp only at h ⊢

theorem window_snoc (N : Nat) (hN : 1 ≤ N) (L : List Message) (m : Message) :
    (if (lastWindow N L ++ [m]).length > N
      then pySliceLast N (lastWindow N L ++ [m])
      else lastWindow N L ++ [m]) = lastWindow N (L ++ [m]) := by
  have hw := lastWindow_length N L
  by_cases hc : L.length < N
  · have h1 := lastWindow_of_le N L (Nat.le_of_lt hc)
    have h2 : lastWindow N (L ++ [m]) = L ++ [m] :=
      lastWindow_of_le N (L ++ [m])
        (by simp only [List.length_append, List.length_singleton]; omega)
    rw [h1, h2, if_neg (by simp only [List.length_append, List.length_singleton]; omega)]
  · have hNL : N ≤ L.length := Nat.le_of_not_lt hc
    have hwlen : (lastWindow N L).length = N := by omega
    have hlen2 : (lastWindow N L ++ [m]).length = N + 1 := by
      simp only [List.length_append, List.length_singleton, hwlen]
    rw [if_pos (by omega)]
    unfold pySliceLast
    rw [if_neg (by omega), hlen2]
    have hstep : N + 1 - N = 1 := by omega
    rw [hstep, List.drop_append_of_le_length (by omega : 1 ≤ (lastWindow N L).length)]
    unfold lastWindow
    rw [List.drop_drop]
    simp only [List.length_append, List.length_singleton]
    rw [List.drop_append_of_le_length (by omega : L.length + 1 - N ≤ L.length)]
    have harith : L.length - N + 1 = L.length + 1 - N := by omega
    rw [harith]

theorem add_message_window (N : Nat) (hN : 1 ≤ N) (L : List Message) (r c : PyStr) :
    ConversationManager.add_message ⟨N, lastWindow N L⟩ r c =
      ⟨N, lastWindow N (L ++ [⟨r, c⟩])⟩ := by
  show ConversationManager.trim_history ⟨N, lastWindow N L ++ [⟨r, c⟩]⟩ = _
  rw [trim_history_mk, window_snoc N hN]

theorem addAll_window (N : Nat) (hN : 1 ≤ N) (adds : List (PyStr × PyStr)) (L : List Message) :
    addAll ⟨N, lastWindow N L⟩ adds =
      ⟨N, lastWindow N (L ++ adds.map (fun p => Message.mk p.1 p.2))⟩ := by
  induction adds generalizing L with
  | nil => simp [addAll]
  | cons a rest ih =>
      simp only [addAll, List.foldl_cons] at ih ⊢
      rw [add_message_window N hN L a.1 a.2, ih]
      simp [List.append_assoc]

theorem addAll_init_window (N : Nat) (hN : 1 ≤ N) (adds : List (PyStr × PyStr)) :
    addAll (ConversationManager.init N) adds =
      ⟨N, lastWindow N (adds.map (fun p => Message.mk p.1 p.2))⟩ := by
  have h0 : (ConversationManager.init N) = (⟨N, lastWindow N []⟩ : ConversationManager) := by
    simp [ConversationManager.init, lastWindow]
  rw [h0, addAll_window N hN adds []]
  simp

/-- C4: with `max_context_messages = N ≥ 1`, after adding `N + k` messages
(any roles and contents, in any order) to a fresh manager,
`get_context_size` returns `N`, `get_messages` returns exactly the last
`N` messages added in their original order, and `len(messages) ≤ N` holds
after every mutation: after each `add_message` along the way, and after
any `clear`. -/
theorem c4_sliding_window_buffer (N k : Nat) (adds : List (PyStr × PyStr))
    (hN : 1 ≤ N) (hlen : adds.length = N + k) :
    (addAll (ConversationManager.init N) adds).get_context_size = N ∧
    (addAll (ConversationManager.init N) adds).get_messages =
      (adds.map (fun p => Message.mk p.1 p.2)).drop k ∧
    (∀ i : Nat, (addAll (ConversationManager.init N) (adds.take i)).messages.length ≤ N) ∧
    (∀ cm : ConversationManager, cm.clear.messages.length ≤ N) := by
  have hmap : (adds.map (fun p => Message.mk p.1 p.2)).length = N + k := by
    simp [hlen]
  refine ⟨?_, ?_, ?_, ?_⟩
  · rw [addAll_init_window N hN adds]
    show (lastWindow N (adds.map (fun p => Message.mk p.1 p.2))).length = N
    rw [lastWindow_length, hmap]
    omega
  · rw [addAll_init_window N hN adds]
    show lastWindow N (adds.map (fun p => Message.mk p.1 p.2)) = _
    unfold lastWindow
    rw [hmap]
    have : N + k - N = k := by omega
    rw [this]
  · intro i
    rw [addAll_init_window N hN (adds.take i)]
    show (lastWindow N ((adds.take i).map (fun p => Message.mk p.1 p.2))).length ≤ N
    rw [lastWindow_length]
    omega
  · intro cm
    simp [ConversationManager.clear]

theorem getD_set_ne_aux {α : Type} (l : List α) (i j : Nat) (a d : α) (hij : i ≠ j) :
    (l.set i a).getD j d = l.getD j d := by
  simp [List.getD_eq_getElem?_getD, List.getElem?_set_ne hij]

theorem getD_append_left_aux {α : Type} (l l2 : List α) (j : Nat) (d : α)
    (hj : j < l.length) :
    (l ++ l2).getD j d = l.getD j d := by
  simp [List.getD_eq_getElem?_getD, List.getElem?_append_left hj]

theorem caller_run_list_only (r : Nat) (g : PyHeap) (ops : List CallerOp)
    (hops : ∀ op ∈ ops, op.list_only = true) :
    (caller_run r g ops).dicts = g.dicts ∧
    (∀ j, j ≠ r → heap_read_list (caller_run r g ops) j = heap_read_list g j) := by
  induction ops generalizing g with
  | nil => exact ⟨rfl, fun _ _ => rfl⟩
  | cons op rest ih =>
      have hop : op.list_only = true := hops op (List.mem_cons_self op rest)
      have hrest : ∀ o ∈ rest, o.list_only = true :=
        fun o ho => hops o (List.mem_cons_of_mem op ho)
      have hstep1 : (caller_step r g op).dicts = g.dicts := by
        cases op with
        | setRole i s => simp [CallerOp.list_only] at hop
        | setContent i s => simp [CallerOp.list_only] at hop
        | listSet i d => rfl
        | listAppend d => rfl
        | listPop => rfl
        | listClear => rfl
      have hstep2 : ∀ j, j ≠ r →
          heap_read_list (caller_step r g op) j = heap_read_list g j := by
        intro j hj
        cases op with
        | setRole i s => simp [CallerOp.list_only] at hop
        | setContent i s => simp [CallerOp.list_only] at hop
        | listSet i d => exact getD_set_ne_aux _ r j _ [] (Ne.symm hj)
        | listAppend d => exact getD_set_ne_aux _ r j _ [] (Ne.symm hj)
        | listPop => exact getD_set_ne_aux _ r j _ [] (Ne.symm hj)
        | listClear => exact getD_set_ne_aux _ r j _ [] (Ne.symm hj)
      have hrun : caller_run r g (op :: rest) = caller_run r (caller_step r g op) rest := rfl
      rw [hrun]
      obtain ⟨ihd, ihl⟩ := ih (caller_step r g op) hrest
      exact ⟨ihd.trans hstep1, fun j hj => (ihl j hj).trans (hstep2 j hj)⟩

/-- C5 amended: `get_messages` returns a fresh list object (a shallow
copy), so any sequence of mutations of the returned list itself — element
replacement, append, pop, clear — leaves the buffer's internal message
list unchanged and does not change what a subsequent `get_messages`
returns. (In-place mutation of the shared message elements is the
exception established by the counterexample.) -/
theorem c5_get_messages_list_copy_frame (h : PyHeap) (cm : ConversationManagerObj)
    (ops : List CallerOp) (href : cm.messages_ref < h.lists.length)
    (hops : ∀ op ∈ ops, op.list_only = true) :
    view_messages
      (caller_run (get_messages_obj h cm).2 (get_messages_obj h cm).1 ops) cm =
      view_messages h cm ∧
    heap_read_list (caller_run (get_messages_obj h cm).2 (get_messages_obj h cm).1 ops)
      cm.messages_ref = heap_read_list h cm.messages_ref := by
  obtain ⟨hd, hl⟩ :=
    caller_run_list_only (get_messages_obj h cm).2 (get_messages_obj h cm).1 ops hops
  have hneq : cm.messages_ref ≠ (get_messages_obj h cm).2 := by
    show cm.messages_ref ≠ h.lists.length
    omega
  have hread1 : heap_read_list (get_messages_obj h cm).1 cm.messages_ref =
      heap_read_list h cm.messages_ref := by
    show (h.lists ++ [heap_read_list h cm.messages_ref]).getD cm.messages_ref [] = _
    exact getD_append_left_aux _ _ _ _ href
  have hreadf : heap_read_list
      (caller_run (get_messages_obj h cm).2 (get_messages_obj h cm).1 ops)
      cm.messages_ref = heap_read_list h cm.messages_ref :=
    (hl cm.messages_ref hneq).trans hread1
  have hdictf : (caller_run (get_messages_obj h cm).2 (get_messages_obj h cm).1 ops).dicts =
      h.dicts := hd
  refine ⟨?_, hreadf⟩
  unfold view_messages
  rw [hreadf]
  refine List.map_congr_left fun d _ => ?_
  simp [heap_read_dict, hdictf]

/-- Witness for the amended C5 at a concrete one-message buffer and a
series of list-level mutations of the returned copy. -/
theorem c5_get_messages_list_copy_frame_witness :
    (⟨10, 0⟩ : ConversationManagerObj).messages_ref <
      (⟨[⟨"user".toList, "hi".toList⟩], [[0]]⟩ : PyHeap).lists.length ∧
    (∀ op ∈ ([.listAppend 0, .listSet 0 0, .listPop, .listClear] : List CallerOp),
      op.list_only = true) ∧
    (view_messages
      (caller_run
        (get_messages_obj (⟨[⟨"user".toList, "hi".toList⟩], [[0]]⟩ : PyHeap) ⟨10, 0⟩).2
        (get_messages_obj (⟨[⟨"user".toList, "hi".toList⟩], [[0]]⟩ : PyHeap) ⟨10, 0⟩).1
        [.listAppend 0, .listSet 0 0, .listPop, .listClear]) ⟨10, 0⟩ =
      view_messages (⟨[⟨"user".toList, "hi".toList⟩], [[0]]⟩ : PyHeap) ⟨10, 0⟩ ∧
    heap_read_list
      (caller_run
        (get_messages_obj (⟨[⟨"user".toList, "hi".toList⟩], [[0]]⟩ : PyHeap) ⟨10, 0⟩).2
        (get_messages_obj (⟨[⟨"user".toList, "hi".toList⟩], [[0]]⟩ : PyHeap) ⟨10, 0⟩).1
        [.listAppend 0, .listSet 0 0, .listPop, .listClear])
      (⟨10, 0⟩ : ConversationManagerObj).messages_ref =
      heap_read_list (⟨[⟨"user".toList, "hi".toList⟩], [[0]]⟩ : PyHeap)
        (⟨10, 0⟩ : ConversationManagerObj).messages_ref) :=
  ⟨by decide, by decide,
   c5_get_messages_list_copy_frame ⟨[⟨"user".toList, "hi".toList⟩], [[0]]⟩ ⟨10, 0⟩
     [.listAppend 0, .listSet 0 0, .listPop, .listClear] (by decide) (by decide)⟩

/-- C5 counterexample: the copy is shallow. Mutating a message element of
the returned value (`ret[0]['content'] = 'evil'`) changes what a
subsequent `get_messages` returns, so the claim that element mutations
leave the buffer unobservable is false. -/
theorem c5_shallow_copy_counterexample :
    view_messages
      (caller_run
        (get_messages_obj (⟨[⟨"user".toList, "hi".toList⟩], [[0]]⟩ : PyHeap) ⟨10, 0⟩).2
        (get_messages_obj (⟨[⟨"user".toList, "hi".toList⟩], [[0]]⟩ : PyHeap) ⟨10, 0⟩).1
        [.setContent 0 "evil".toList]) ⟨10, 0⟩ ≠
      view_messages (⟨[⟨"user".toList, "hi".toList⟩], [[0]]⟩ : PyHeap) ⟨10, 0⟩ := by
  decide

/-- Witness for C4 at `N = 2`, `k = 1`: adding three messages to a
two-slot buffer keeps the last two, in order. -/
theorem c4_sliding_window_buffer_witness :
    1 ≤ 2 ∧ ([("u".toList, "a".toList), ("a".toList, "b".toList),
              ("u".toList, "c".toList)] : List (PyStr × PyStr)).length = 2 + 1 ∧
    ((addAll (ConversationManager.init 2)
        [("u".toList, "a".toList), ("a".toList, "b".toList),
         ("u".toList, "c".toList)]).get_context_size = 2 ∧
     (addAll (ConversationManager.init 2)
        [("u".toList, "a".toList), ("a".toList, "b".toList),
         ("u".toList, "c".toList)]).get_messages =
       (([("u".toList, "a".toList), ("a".toList, "b".toList),
          ("u".toList, "c".toList)] : List (PyStr × PyStr)).map
         (fun p => Message.mk p.1 p.2)).drop 1 ∧
     (∀ i : Nat, (addAll (ConversationManager.init 2)
        (([("u".toList, "a".toList), ("a".toList, "b".toList),
           ("u".toList, "c".toList)] : List (PyStr × PyStr)).take i)).messages.length ≤ 2) ∧
     (∀ cm : ConversationManager, cm.clear.messages.length ≤ 2)) :=
  ⟨by decide, by decide,
   c4_sliding_window_buffer 2 1
     [("u".toList, "a".toList), ("a".toList, "b".toList), ("u".toList, "c".toList)]
     (by decide) (by decide)⟩

theorem lookup_set_calls (m : List (PyStr × List ℤ)) (id : PyStr) (v : List ℤ) :
    lookup_calls (set_calls m id v) id = some v := by
  induction m with
  | nil => simp [set_calls, lookup_calls]
  | cons kv rest ih =>
      obtain ⟨k, w⟩ := kv
      by_cases hk : k = id
      · simp [set_calls, lookup_calls, hk]
      · simp [set_calls, lookup_calls, hk, ih]

/-- C6: `is_allowed` returns `True` exactly when, after discarding the
expired timestamps (those at least `period` seconds old) from the
identifier's history, fewer than `max_calls` remain; and the stored
history afterwards is the pruned history, with `now` appended exactly
when the call was admitted. -/
theorem c6_is_allowed_characterization (rl : RateLimiter) (identifier : PyStr) (now : ℤ) :
    ((rl.is_allowed identifier now).1 = true ↔
      (surviving ((lookup_calls rl.calls identifier).getD []) now rl.period).length <
        rl.max_calls) ∧
    lookup_calls (rl.is_allowed identifier now).2.calls identifier =
      some (if (rl.is_allowed identifier now).1 = true
        then surviving ((lookup_calls rl.calls identifier).getD []) now rl.period ++ [now]
        else surviving ((lookup_calls rl.calls identifier).getD []) now rl.period) := by
  simp only [RateLimiter.is_allowed, surviving]
  by_cases hc : (((lookup_calls rl.calls identifier).getD []).filter
      (fun t => now - t < rl.period)).length < rl.max_calls
  · simp [hc, lookup_set_calls]
  · simp [hc, lookup_set_calls]

theorem set_calls_mem (m : List (PyStr × List ℤ)) (id : PyStr) (v : List ℤ)
    (e : PyStr × List ℤ) (he : e ∈ set_calls m id v) :
    e = (id, v) ∨ e ∈ m := by
  induction m with
  | nil =>
      simp [set_calls] at he
      exact Or.inl he
  | cons kv rest ih =>
      obtain ⟨k, w⟩ := kv
      by_cases hk : k = id
      · simp only [set_calls, hk, if_pos] at he
        rcases List.mem_cons.mp he with he | he
        · exact Or.inl he
        · exact Or.inr (List.mem_cons_of_mem _ he)
      · simp only [set_calls, hk, if_neg, ite_false] at he
        rcases List.mem_cons.mp he with he | he
        · exact Or.inr (he ▸ List.mem_cons_self _ _)
        · rcases ih he with h1 | h1
          · exact Or.inl h1
          · exact Or.inr (List.mem_cons_of_mem _ h1)

theorem lookup_calls_mem (m : List (PyStr × List ℤ)) (id : PyStr) (l : List ℤ)
    (h : lookup_calls m id = some l) : (id, l) ∈ m := by
  induction m with
  | nil => simp [lookup_calls] at h
  | cons kv rest ih =>
      obtain ⟨k, w⟩ := kv
      by_cases hk : k = id
      · simp only [lookup_calls, hk, if_pos] at h
        subst hk
        exact (Option.some.injEq _ _ ▸ h) ▸ List.mem_cons_self _ _
      · simp only [lookup_calls, hk, if_neg, ite_false] at h
        exact List.mem_cons_of_mem _ (ih h)

theorem is_allowed_preserves_bound (rl : RateLimiter) (id : PyStr) (now : ℤ)
    (hb : ∀ e ∈ rl.calls, e.2.length ≤ rl.max_calls) :
    ∀ e ∈ (rl.is_allowed id now).2.calls, e.2.length ≤ rl.max_calls := by
  intro e he
  have hhist : (((lookup_calls rl.calls id).getD []) : List ℤ).length ≤ rl.max_calls := by
    cases hl : lookup_calls rl.calls id with
    | none => simp
    | some l =>
        have := hb (id, l) (lookup_calls_mem rl.calls id l hl)
        simpa using this
  have hpr : (((lookup_calls rl.calls id).getD []).filter
      (fun t => now - t < rl.period)).length ≤ rl.max_calls :=
    le_trans (List.length_filter_le _ _) hhist
  simp only [RateLimiter.is_allowed] at he
  by_cases hc : (((lookup_calls rl.calls id).getD []).filter
      (fun t => now - t < rl.period)).length < rl.max_calls
  · rw [if_pos hc] at he
    simp only at he
    rcases set_calls_mem _ _ _ _ he with h1 | h1
    · subst h1
      simp only [List.length_append, List.length_singleton]
      omega
    · exact hb e h1
  · rw [if_neg hc] at he
    simp only at he
    rcases set_calls_mem _ _ _ _ he with h1 | h1
    · subst h1
      simpa using hpr
    · exact hb e h1

theorem is_allowed_preserves_config (rl : RateLimiter) (id : PyStr) (now : ℤ) :
    (rl.is_allowed id now).2.max_calls = rl.max_calls := by
  simp only [RateLimiter.is_allowed]
  by_cases hc : (((lookup_calls rl.calls id).getD []).filter
      (fun t => now - t < rl.period)).length < rl.max_calls
  · rw [if_pos hc]
  · rw [if_neg hc]

theorem run_limiter_bounded (seq : List (PyStr × ℤ)) (rl : RateLimiter)
    (hb : ∀ e ∈ rl.calls, e.2.length ≤ rl.max_calls) :
    ∀ e ∈ (run_limiter rl seq).calls, e.2.length ≤ rl.max_calls := by
  induction seq generalizing rl with
  | nil => exact hb
  | cons c rest ih =>
      obtain ⟨id, now⟩ := c
      have hstep := is_allowed_preserves_bound rl id now hb
      have hcfg := is_allowed_preserves_config rl id now
      have := ih (rl.is_allowed id now).2 (by rw [hcfg]; exact hstep)
      rw [hcfg] at this
      exact this

/-- C10: starting from the empty limiter state, after any sequence of
`is_allowed` calls every identifier present in the `calls` map has a
recorded timestamp list of length at most `max_calls`. -/
theorem c10_history_bounded (max_calls : Nat) (period : ℤ) (seq : List (PyStr × ℤ))
    (e : PyStr × List ℤ)
    (he : e ∈ (run_limiter (RateLimiter.init max_calls period) seq).calls) :
    e.2.length ≤ max_calls := by
  have := run_limiter_bounded seq (RateLimiter.init max_calls period)
    (by intro x hx; simp [RateLimiter.init] at hx)
  exact this e he

/-- Witness for C10: two calls against `max_calls = 1` leave the single
identifier with one recorded timestamp. -/
theorem c10_history_bounded_witness :
    (("d".toList, ([0] : List ℤ)) ∈
      (run_limiter (RateLimiter.init 1 60)
        [("d".toList, 0), ("d".toList, 1)]).calls) ∧
    (("d".toList, ([0] : List ℤ)) : PyStr × List ℤ).2.length ≤ 1 :=
  ⟨by decide,
   c10_history_bounded 1 60 [("d".toList, 0), ("d".toList, 1)]
     ("d".toList, [0]) (by decide)⟩

theorem mem_control_chars (c : Char) (hd : disallowed_control c = true) :
    c ∈ control_chars := by
  unfold disallowed_control at hd
  rw [Bool.and_eq_true] at hd
  obtain ⟨h1, h2⟩ := hd
  unfold control_chars
  rw [List.mem_filter]
  refine ⟨?_, h2⟩
  rw [List.mem_map]
  exact ⟨c.toNat, List.mem_range.mpr (by simpa using h1), Char.ofNat_toNat c⟩

theorem toNat_ofNat_small (i : Nat) (hi : i < 32) : (Char.ofNat i).toNat = i := by
  interval_cases i <;> decide

theorem control_chars_disallowed (c : Char) (hc : c ∈ control_chars) :
    disallowed_control c = true := by
  unfold control_chars at hc
  rw [List.mem_filter] at hc
  obtain ⟨hmap, hcond⟩ := hc
  rw [List.mem_map] at hmap
  obtain ⟨i, hi, hofn⟩ := hmap
  rw [List.mem_range] at hi
  unfold disallowed_control
  rw [Bool.and_eq_true]
  refine ⟨?_, hcond⟩
  subst hofn
  rw [toNat_ofNat_small i hi]
  exact decide_eq_true hi

/-- C7: after one trim, a non-empty message of at most 10000 characters
containing a NUL byte or a control character in `U+0001`-`U+001F` other
than newline, tab or carriage return is rejected with code
`INVALID_CHARACTERS` and status 400; a trimmed message of length 1..10000
with no such character passes validation. -/
theorem c7_validator_characterization (raw : PyStr) :
    (pyStrip raw ≠ [] → (pyStrip raw).length ≤ 10000 →
      has_disallowed_control (pyStrip raw) = true →
      ∃ e : APIError, validate_message raw = .error e ∧
        e.code = "INVALID_CHARACTERS".toList ∧ e.status_code = 400) ∧
    (1 ≤ (pyStrip raw).length → (pyStrip raw).length ≤ 10000 →
      has_disallowed_control (pyStrip raw) = false →
      validate_message raw = .ok (pyStrip raw)) := by
  constructor
  · intro hne hlen hbad
    have hempty : (pyStrip raw).isEmpty = false := by
      cases h : pyStrip raw with
      | nil => exact absurd h hne
      | cons a l => rfl
    have hlen1 : ¬ (pyStrip raw).length < MIN_MESSAGE_LENGTH := by
      have : pyStrip raw ≠ [] := hne
      have : 0 < (pyStrip raw).length := List.length_pos.mpr this
      unfold MIN_MESSAGE_LENGTH
      omega
    have hlen2 : ¬ (pyStrip raw).length > MAX_MESSAGE_LENGTH := by
      unfold MAX_MESSAGE_LENGTH
      omega
    simp only [validate_message]
    rw [hempty]
    simp only [Bool.false_eq_true, if_false, if_neg hlen1, if_neg hlen2]
    by_cases hnul : (pyStrip raw).contains (Char.ofNat 0)
    · rw [if_pos hnul]
      exact ⟨_, rfl, rfl, rfl⟩
    · rw [if_neg hnul]
      have hany : control_chars.any (fun c => (pyStrip raw).contains c) = true := by
        rw [List.any_eq_true]
        unfold has_disallowed_control at hbad
        rw [List.any_eq_true] at hbad
        obtain ⟨c, hcmem, hcd⟩ := hbad
        refine ⟨c, mem_control_chars c hcd, ?_⟩
        exact List.elem_eq_true_of_mem hcmem
      rw [if_pos hany]
      exact ⟨_, rfl, rfl, rfl⟩
  · intro h1 h2 hclean
    have hempty : (pyStrip raw).isEmpty = false := by
      cases h : pyStrip raw with
      | nil => rw [h] at h1; simp at h1
      | cons a l => rfl
    have hlen1 : ¬ (pyStrip raw).length < MIN_MESSAGE_LENGTH := by
      unfold MIN_MESSAGE_LENGTH
      omega
    have hlen2 : ¬ (pyStrip raw).length > MAX_MESSAGE_LENGTH := by
      unfold MAX_MESSAGE_LENGTH
      omega
    have hnodis : ∀ c ∈ pyStrip raw, disallowed_control c = false := by
      intro c hc
      unfold has_disallowed_control at hclean
      rw [List.any_eq_false] at hclean
      simpa using hclean c hc
    have hnul : ¬ (pyStrip raw).contains (Char.ofNat 0) := by
      intro hcon
      have hmem : (Char.ofNat 0) ∈ pyStrip raw := by
        simpa [List.contains] using hcon
      have := hnodis _ hmem
      simp [disallowed_control] at this
    have hany : ¬ control_chars.any (fun c => (pyStrip raw).contains c) = true := by
      intro hcon
      rw [List.any_eq_true] at hcon
      obtain ⟨c, hcmem, hccon⟩ := hcon
      have hmem : c ∈ pyStrip raw := by
        simpa [List.contains] using hccon
      have hfalse := hnodis c hmem
      have htrue := control_chars_disallowed c hcmem
      rw [htrue] at hfalse
      exact Bool.noConfusion hfalse
    simp only [validate_message]
    rw [hempty]
    simp only [Bool.false_eq_true, if_false, if_neg hlen1, if_neg hlen2,
      if_neg hnul, if_neg hany]

/-- Witness for C7: a message with `\x01` inside is rejected with
`INVALID_CHARACTERS`, and a clean message passes. -/
theorem c7_validator_characterization_witness :
    (pyStrip "a\x01b".toList ≠ [] ∧ (pyStrip "a\x01b".toList).length ≤ 10000 ∧
      has_disallowed_control (pyStrip "a\x01b".toList) = true ∧
      (∃ e : APIError, validate_message "a\x01b".toList = .error e ∧
        e.code = "INVALID_CHARACTERS".toList ∧ e.status_code = 400)) ∧
    (1 ≤ (pyStrip "hi".toList).length ∧ (pyStrip "hi".toList).length ≤ 10000 ∧
      has_disallowed_control (pyStrip "hi".toList) = false ∧
      validate_message "hi".toList = .ok (pyStrip "hi".toList)) :=
  ⟨⟨by decide, by decide, by decide,
    (c7_validator_characterization "a\x01b".toList).1 (by decide) (by decide) (by decide)⟩,
   ⟨by decide, by decide, by decide,
    (c7_validator_characterization "hi".toList).2 (by decide) (by decide) (by decide)⟩⟩

/-- C9: the `MESSAGE_TOO_SHORT` branch is unreachable: the message is
trimmed and checked for emptiness first, so a non-empty trimmed message
always has length at least 1 and the handler never rejects with
`MESSAGE_TOO_SHORT`. -/
theorem c9_too_short_unreachable (raw : PyStr) (e : APIError)
    (h : validate_message raw = .error e) :
    e.code ≠ "MESSAGE_TOO_SHORT".toList := by
  simp only [validate_message] at h
  by_cases hempty : (pyStrip raw).isEmpty
  · rw [if_pos hempty] at h
    cases h
    decide
  · have hpos : 0 < (pyStrip raw).length := by
      cases hs : pyStrip raw with
      | nil => rw [hs] at hempty; simp at hempty
      | cons a l => simp [hs]
    have hlt : ¬ (pyStrip raw).length < MIN_MESSAGE_LENGTH := by
      unfold MIN_MESSAGE_LENGTH
      omega
    rw [if_neg hempty, if_neg hlt] at h
    by_cases h3 : (pyStrip raw).length > MAX_MESSAGE_LENGTH
    · rw [if_pos h3] at h
      cases h
      decide
    · rw [if_neg h3] at h
      by_cases h4 : (pyStrip raw).contains (Char.ofNat 0)
      · rw [if_pos h4] at h
        cases h
        decide
      · rw [if_neg h4] at h
        by_cases h5 : control_chars.any (fun c => (pyStrip raw).contains c)
        · rw [if_pos h5] at h
          cases h
          decide
        · rw [if_neg h5] at h
          cases h

/-- Witness for C9 at the empty message: the validator rejects it, and
the code of the rejection is not `MESSAGE_TOO_SHORT`. -/
theorem c9_too_short_unreachable_witness :
    validate_message "".toList =
      .error ⟨"Message is required and cannot be empty".toList,
              "MISSING_MESSAGE".toList, 400⟩ ∧
    (⟨"Message is required and cannot be empty".toList,
      "MISSING_MESSAGE".toList, 400⟩ : APIError).code ≠ "MESSAGE_TOO_SHORT".toList :=
  ⟨by rfl,
   c9_too_short_unreachable "".toList
     ⟨"Message is required and cannot be empty".toList, "MISSING_MESSAGE".toList, 400⟩
     (by rfl)⟩

theorem relay_items_clean (pre : List StreamItem)
    (hpre : ∀ it ∈ pre, nonterminal_item it = true) (tail : List StreamItem) :
    relay_items (pre ++ tail) =
      ((pre.filterMap delta_text).map sse_chunk ++ (relay_items tail).1,
       (relay_items tail).2) := by
  induction pre with
  | nil => simp
  | cons it rest ih =>
      have hit := hpre it (List.mem_cons_self it rest)
      have hrest : ∀ i ∈ rest, nonterminal_item i = true :=
        fun i hi => hpre i (List.mem_cons_of_mem it hi)
      cases it with
      | raiseErr m => simp [nonterminal_item] at hit
      | evt e =>
          cases e with
          | message_stop => simp [nonterminal_item] at hit
          | content_block_delta t =>
              cases t with
              | some s =>
                  simp only [List.cons_append, relay_items, List.filterMap_cons, delta_text,
                List.append_eq]
                  rw [ih hrest]
                  simp
              | none =>
                  simp only [List.cons_append, relay_items, List.filterMap_cons, delta_text,
                List.append_eq]
                  exact ih hrest
          | content_block_start =>
              simp only [List.cons_append, relay_items, List.filterMap_cons, delta_text,
                List.append_eq]
              exact ih hrest
          | content_block_stop =>
              simp only [List.cons_append, relay_items, List.filterMap_cons, delta_text,
                List.append_eq]
              exact ih hrest

/-- C8: a failure of the vendor call surfaces as a typed `APIError` —
`CLAUDE_API_ERROR` with status 502 when the initial call fails,
`STREAMING_ERROR` with status 500 when iteration fails — and the relay
yields no frame beyond those of the deltas preceding the failure; in
particular no synthetic error frame is yielded, and `generate` passes the
failure through without adding a message or yielding anything further. -/
theorem c8_failures_typed_no_synthetic_frames (pre : List StreamItem) (m : PyStr)
    (tail : List StreamItem) (cm : ConversationManager)
    (hpre : ∀ it ∈ pre, nonterminal_item it = true) :
    stream_response (.callOk (pre ++ .raiseErr m :: tail)) =
      ((pre.filterMap delta_text).map sse_chunk, some (streaming_error m)) ∧
    (streaming_error m).code = "STREAMING_ERROR".toList ∧
    (streaming_error m).status_code = 500 ∧
    stream_response (.callFail m) = ([], some (claude_api_error m)) ∧
    (claude_api_error m).code = "CLAUDE_API_ERROR".toList ∧
    (claude_api_error m).status_code = 502 ∧
    generate_run cm (.callOk (pre ++ .raiseErr m :: tail)) =
      ((pre.filterMap delta_text).map sse_chunk, cm, some (streaming_error m)) ∧
    generate_run cm (.callFail m) = ([], cm, some (claude_api_error m)) := by
  have hrelay := relay_items_clean pre hpre (.raiseErr m :: tail)
  have hr2 : relay_items (StreamItem.raiseErr m :: tail) = ([], some (streaming_error m)) := rfl
  rw [hr2] at hrelay
  simp only [List.append_nil] at hrelay
  have hstream : stream_response (.callOk (pre ++ .raiseErr m :: tail)) =
      ((pre.filterMap delta_text).map sse_chunk, some (streaming_error m)) := by
    show relay_items (pre ++ .raiseErr m :: tail) = _
    exact hrelay
  refine ⟨hstream, rfl, rfl, rfl, rfl, rfl, ?_, rfl⟩
  simp only [generate_run, hstream]

/-- Witness for C8: one `Hi` delta before the iteration failure. -/
theorem c8_failures_typed_no_synthetic_frames_witness :
    (∀ it ∈ ([.evt (.content_block_delta (some "Hi".toList))] : List StreamItem),
      nonterminal_item it = true) ∧
    (stream_response (.callOk ([.evt (.content_block_delta (some "Hi".toList))] ++
        .raiseErr "boom".toList :: [])) =
      ((([.evt (.content_block_delta (some "Hi".toList))] : List StreamItem).filterMap
          delta_text).map sse_chunk, some (streaming_error "boom".toList)) ∧
    (streaming_error "boom".toList).code = "STREAMING_ERROR".toList ∧
    (streaming_error "boom".toList).status_code = 500 ∧
    stream_response (.callFail "boom".toList) = ([], some (claude_api_error "boom".toList)) ∧
    (claude_api_error "boom".toList).code = "CLAUDE_API_ERROR".toList ∧
    (claude_api_error "boom".toList).status_code = 502 ∧
    generate_run (ConversationManager.init 10)
        (.callOk ([.evt (.content_block_delta (some "Hi".toList))] ++
          .raiseErr "boom".toList :: [])) =
      ((([.evt (.content_block_delta (some "Hi".toList))] : List StreamItem).filterMap
          delta_text).map sse_chunk, ConversationManager.init 10,
        some (streaming_error "boom".toList)) ∧
    generate_run (ConversationManager.init 10) (.callFail "boom".toList) =
      ([], ConversationManager.init 10, some (claude_api_error "boom".toList))) :=
  ⟨by decide,
   c8_failures_typed_no_synthetic_frames
     [.evt (.content_block_delta (some "Hi".toList))] "boom".toList []
     (ConversationManager.init 10) (by decide)⟩

theorem hexVal_hexDigitChar (n : Nat) (h : n < 16) : hexVal (hexDigitChar n) = some n := by
  interval_cases n <;> decide

theorem parse_body_roundtrip (t rest : PyStr) :
    parse_json_string_body ((t.map jsonEscapeChar).flatten ++ '"' :: rest) =
      some (t, rest) := by
  induction t with
  | nil =>
      simp only [List.map_nil, List.flatten_nil, List.nil_append]
      rw [parse_json_string_body.eq_def]
      simp +decide
  | cons c cs ih =>
      simp only [List.map_cons, List.flatten_cons, List.append_assoc]
      by_cases h1 : c = '"'
      · subst h1
        rw [show jsonEscapeChar '"' = ['\\', '"'] from by decide]
        simp only [List.cons_append, List.nil_append]
        rw [parse_json_string_body.eq_def]
        simp +decide [ih]
      · by_cases h2 : c = '\\'
        · subst h2
          rw [show jsonEscapeChar '\\' = ['\\', '\\'] from by decide]
          simp only [List.cons_append, List.nil_append]
          rw [parse_json_string_body.eq_def]
          simp +decide [ih]
        · by_cases h3 : c = '\n'
          · subst h3
            rw [show jsonEscapeChar '\n' = ['\\', 'n'] from by decide]
            simp only [List.cons_append, List.nil_append]
            rw [parse_json_string_body.eq_def]
            simp +decide [ih]
          · by_cases h4 : c = '\t'
            · subst h4
              rw [show jsonEscapeChar '\t' = ['\\', 't'] from by decide]
              simp only [List.cons_append, List.nil_append]
              rw [parse_json_string_body.eq_def]
              simp +decide [ih]
            · by_cases h5 : c = '\r'
              · subst h5
                rw [show jsonEscapeChar '\r' = ['\\', 'r'] from by decide]
                simp only [List.cons_append, List.nil_append]
                rw [parse_json_string_body.eq_def]
                simp +decide [ih]
              · by_cases h6 : c = Char.ofNat 8
                · subst h6
                  rw [show jsonEscapeChar (Char.ofNat 8) = ['\\', 'b'] from by decide]
                  simp only [List.cons_append, List.nil_append]
                  rw [parse_json_string_body.eq_def]
                  simp +decide [ih]
                · by_cases h7 : c = Char.ofNat 12
                  · subst h7
                    rw [show jsonEscapeChar (Char.ofNat 12) = ['\\', 'f'] from by decide]
                    simp only [List.cons_append, List.nil_append]
                    rw [parse_json_string_body.eq_def]
                    simp +decide [ih]
                  · by_cases h8 : c.toNat < 32
                    · have hesc : jsonEscapeChar c =
                          ['\\', 'u', '0', '0', hexDigitChar (c.toNat / 16),
                           hexDigitChar (c.toNat % 16)] := by
                        simp [jsonEscapeChar, h1, h2, h3, h4, h5, h6, h7, h8]
                      rw [hesc]
                      have hdiv : c.toNat / 16 < 16 := by omega
                      have hmod : c.toNat % 16 < 16 := by omega
                      have h0 : hexVal '0' = some 0 := by decide
                      have hchar : Char.ofNat (16 * (c.toNat / 16) + c.toNat % 16) = c := by
                        rw [show 16 * (c.toNat / 16) + c.toNat % 16 = c.toNat from by omega,
                          Char.ofNat_toNat]
                      simp only [List.cons_append, List.nil_append]
                      rw [parse_json_string_body.eq_def]
                      simp +decide [h0, hexVal_hexDigitChar _ hdiv,
                        hexVal_hexDigitChar _ hmod, ih, hchar]
                    · have hesc : jsonEscapeChar c = [c] := by
                        simp [jsonEscapeChar, h1, h2, h3, h4, h5, h6, h7, h8]
                      rw [hesc]
                      simp only [List.cons_append, List.nil_append]
                      rw [parse_json_string_body.eq_def]
                      simp [h1, h2, h8, ih]

theorem extract_sse_json_roundtrip (t : PyStr) :
    extract_chunk_text (sse_json_chunk t) = some t := by
  have hpre : sse_data_marker.isPrefixOf (sse_json_chunk t) = true := by
    rw [List.isPrefixOf_iff_prefix]
    show sse_data_marker <+: sse_data_marker ++ json_text_object t ++ sse_frame_tail
    rw [List.append_assoc]
    exact List.prefix_append _ _
  have hsuf : sse_frame_tail.isSuffixOf (sse_json_chunk t) = true := by
    rw [List.isSuffixOf_iff_suffix]
    show sse_frame_tail <:+ sse_data_marker ++ json_text_object t ++ sse_frame_tail
    exact List.suffix_append _ _
  unfold extract_chunk_text
  rw [hpre, hsuf]
  simp only [Bool.and_self, if_true]
  have hdrop : (sse_json_chunk t).drop 6 = json_text_object t ++ sse_frame_tail := by
    show (sse_data_marker ++ json_text_object t ++ sse_frame_tail).drop 6 = _
    rw [List.append_assoc]
    exact List.drop_left' (by rfl)
  rw [hdrop]
  have hdl : (json_text_object t ++ sse_frame_tail).dropLast.dropLast =
      json_text_object t := by
    show (json_text_object t ++ ['\n', '\n']).dropLast.dropLast = _
    rw [show (json_text_object t ++ ['\n', '\n']) =
        (json_text_object t ++ ['\n']) ++ ['\n'] by simp]
    rw [List.dropLast_concat, List.dropLast_concat]
  rw [hdl]
  have hpayload : json_text_object t =
      json_text_head ++ ((t.map jsonEscapeChar).flatten ++ '"' :: ['}']) := by
    simp [json_text_object, json_dumps_string, json_text_head]
  rw [hpayload]
  unfold json_loads_text
  rw [if_pos, List.drop_left' (show json_text_head.length = 10 from rfl),
    parse_body_roundtrip t ['}']]
  · simp
  · rw [List.isPrefixOf_iff_prefix]
    exact List.prefix_append _ _

/-- Every frame of the shape the specification prescribes passes the
frame-shape test: the decoder inverts the encoder. -/
theorem is_sse_json_chunk_of_spec_frame (t : PyStr) :
    is_sse_json_chunk (sse_json_chunk t) = true := by
  unfold is_sse_json_chunk
  rw [extract_sse_json_roundtrip]
  rfl

/-- C1 (code bug): on a vendor stream producing the single delta `Hello`,
the relay yields exactly the frame `data: Hello\n\n`, whose payload is
the raw delta text, not a JSON object with a `text` field — the frame
fails the shape the specification prescribes. The third conjunct shows
the shape test is not vacuous: the prescribed frame for `Hello` passes it. -/
theorem c1_frames_not_json_encoded :
    stream_response hello_call = (["data: Hello\n\n".toList], none) ∧
    is_sse_json_chunk "data: Hello\n\n".toList = false ∧
    is_sse_json_chunk (sse_json_chunk "Hello".toList) = true := by
  refine ⟨rfl, rfl, rfl⟩

/-- C2 (code bug): a successful `/api/chat` run with message `hi` (sent
as `" hi "`) over a vendor stream producing `Hello` adds exactly the
trimmed user message and one assistant message — but the assistant
content is empty rather than the full completion text `Hello`, because
the raw frames fail JSON decoding inside `generate`. -/
theorem c2_assistant_message_not_full_text :
    chat_handler (ConversationManager.init 10) " hi ".toList hello_call =
      .ok (["data: Hello\n\n".toList],
        ⟨10, [⟨"user".toList, "hi".toList⟩, ⟨"assistant".toList, []⟩]⟩, none) ∧
    vendor_full_text hello_call = "Hello".toList ∧
    ("Hello".toList : PyStr) ≠ [] := by
  refine ⟨by rfl, rfl, by decide⟩

/-- C3 (code bug): concatenating the decoded `text` fields of the frames
the relay emits recovers nothing — the raw frame for `Hello` fails JSON
decoding, so the reconstruction is empty instead of the vendor's full
completion text `Hello`. -/
theorem c3_roundtrip_fails :
    (stream_response hello_call).1 = ["data: Hello\n\n".toList] ∧
    ((stream_response hello_call).1.filterMap extract_chunk_text).flatten = [] ∧
    vendor_full_text hello_call = "Hello".toList ∧
    ("Hello".toList : PyStr) ≠ [] := by
  refine ⟨rfl, rfl, rfl, by decide⟩

end ChatApi
